/-
Verification of the RBC activity-statement text parser
(src/extract_rbc_activity.py) against its natural-language specification.

The Python source is shallowly embedded below.  Strings are Lean Strings
(lists of characters); Python floats are modelled as exact rationals
(`PyFloat.fin : Rat`) plus infinity/NaN constructors -- binary rounding and
overflow of IEEE doubles are abstracted away, which is irrelevant for the
claims settled here (they only concern which tokens are classified numeric
and the decimal values of short literals).  Regular expressions from the
source are embedded as executable character-list scanners that follow the
Python `re` semantics of the concrete patterns (anchoring, greediness,
backtracking behaviour of these specific patterns).  Character classes are
restricted to ASCII, matching all inputs exercised by the claims.
Python exceptions (the `ACCOUNT_MAP[...]` KeyError, the missing-account
ValueError) are modelled with `Except String`.
-/
import Mathlib

set_option maxRecDepth 100000
set_option maxHeartbeats 1000000

/-! ### Character classes (ASCII models of Python's `str` predicates) -/

/-- ASCII decimal digit, the model of Python's `\d` on the inputs at hand. -/
def isDigitC (c : Char) : Bool := decide (48 ≤ c.toNat ∧ c.toNat ≤ 57)

/-- ASCII letter. -/
def isLetterC (c : Char) : Bool :=
  decide ((65 ≤ c.toNat ∧ c.toNat ≤ 90) ∨ (97 ≤ c.toNat ∧ c.toNat ≤ 122))

/-- Whitespace recognised by Python's `str.split` / `str.strip` (ASCII part). -/
def isPySpace (c : Char) : Bool :=
  decide (c.toNat = 32 ∨ c.toNat = 9 ∨ c.toNat = 10 ∨ c.toNat = 13 ∨
          c.toNat = 11 ∨ c.toNat = 12)

/-- Word character for `\b` boundaries in `re`: `[A-Za-z0-9_]`. -/
def isWordC (c : Char) : Bool := isDigitC c || isLetterC c || decide (c = '_')

/-- ASCII lower-casing, the model of Python's `str.lower` on ASCII input. -/
def lowerChar (c : Char) : Char :=
  if 65 ≤ c.toNat ∧ c.toNat ≤ 90 then Char.ofNat (c.toNat + 32) else c

/-! ### String helpers (models of the Python string operations used) -/

/-- Strip leading whitespace. -/
def despaceL (l : List Char) : List Char := l.dropWhile isPySpace

/-- `str.strip()` on a character list. -/
def pyStripL (l : List Char) : List Char :=
  ((despaceL l).reverse.dropWhile isPySpace).reverse

/-- `str.strip()`. -/
def pyStrip (s : String) : String := String.mk (pyStripL s.toList)

/-- `str.strip(c)` for a single character `c`. -/
def stripChar (c : Char) (s : String) : String :=
  String.mk (((s.toList.dropWhile (fun d => decide (d = c))).reverse.dropWhile
      (fun d => decide (d = c))).reverse)

/-- Does `pre` lead the list `l` (list-prefix test)? -/
def leadsWith : List Char → List Char → Bool
  | [], _ => true
  | _ :: _, [] => false
  | c :: cs, d :: ds => if c = d then leadsWith cs ds else false

/-- Occurrence of `n` anywhere inside `h` (model of Python's `in`). -/
def subAux (n : List Char) : List Char → Bool
  | [] => decide (n = [])
  | c :: cs => leadsWith n (c :: cs) || subAux n cs

/-- `needle in hay` for Python strings. -/
def containsSub (hay needle : String) : Bool := subAux needle.toList hay.toList

/-- `s.startswith(pre)`. -/
def startsWithPy (s pre : String) : Bool := leadsWith pre.toList s.toList

/-- Length bound for `dropWhile`, used in termination proofs. -/
theorem dropWhile_len_le {α : Type} (p : α → Bool) :
    ∀ l : List α, (l.dropWhile p).length ≤ l.length
  | [] => Nat.le_refl _
  | c :: cs => by
    simp only [List.dropWhile]
    split
    · exact Nat.le_succ_of_le (dropWhile_len_le p cs)
    · exact Nat.le_refl _

/-- `str.split()` with no argument, with an accumulator for the word being
read (kept reversed): split on whitespace runs, dropping empties. -/
def splitWsAcc : List Char → List Char → List String
  | acc, [] => if acc = [] then [] else [String.mk acc.reverse]
  | acc, c :: cs =>
    if isPySpace c then
      if acc = [] then splitWsAcc [] cs
      else String.mk acc.reverse :: splitWsAcc [] cs
    else splitWsAcc (c :: acc) cs

def splitWsGo (l : List Char) : List String := splitWsAcc [] l

/-- `line.split()`. -/
def splitWs (s : String) : List String := splitWsGo s.toList

/-- `" ".join ts`. -/
def joinSpace (ts : List String) : String := String.intercalate " " ts

/-- `str.replace(pat, rep)` for a non-empty pattern: leftmost,
non-overlapping.  Fuel-driven; one unit of fuel per character position, so
`l.length` fuel always suffices (a match consumes at least one character). -/
def pyReplaceGo (pat rep : List Char) : Nat → List Char → List Char
  | _, [] => []
  | 0, l => l
  | fuel + 1, c :: cs =>
    if pat ≠ [] ∧ leadsWith pat (c :: cs) then
      rep ++ pyReplaceGo pat rep fuel ((c :: cs).drop pat.length)
    else
      c :: pyReplaceGo pat rep fuel cs

/-- Python `str.replace`, including the empty-pattern case, where Python
inserts the replacement at every position. -/
def pyReplace (s pat rep : String) : String :=
  if pat.toList = [] then
    rep ++ String.join (s.toList.map (fun c => String.mk [c] ++ rep))
  else
    String.mk (pyReplaceGo pat.toList rep.toList s.toList.length s.toList)

/-- Digits of a list read as a base-10 natural number. -/
def natOfDigits (l : List Char) : Nat :=
  l.foldl (fun a c => a * 10 + (c.toNat - 48)) 0

/-! ### Python `float()` parsing (model of CPython string-to-double)

A Python float is modelled exactly: finite values as rationals, plus
infinities and NaN.  Rounding to binary64 is abstracted (values are kept
exact), which the claims do not depend on. -/

/-- A Python float value. -/
inductive PyFloat where
  | fin (q : Rat)
  | inf (neg : Bool)
  | nan
deriving DecidableEq, Repr

/-- A Python value that is either a float or a string (the two result types
of the numeric classifier). -/
inductive PyVal where
  | num (f : PyFloat)
  | str (s : String)
deriving DecidableEq, Repr

/-- Decidable equality for `Except`, used to evaluate the embedded
functions (whose exceptions are modelled with `Except`) on concrete
inputs. -/
instance exceptDecEq {ε α : Type} [DecidableEq ε] [DecidableEq α] :
    DecidableEq (Except ε α) := fun a b =>
  match a, b with
  | .error e, .error f =>
    if h : e = f then .isTrue (by rw [h]) else .isFalse (fun hh => h (by cases hh; rfl))
  | .ok x, .ok y =>
    if h : x = y then .isTrue (by rw [h]) else .isFalse (fun hh => h (by cases hh; rfl))
  | .error _, .ok _ => .isFalse (fun hh => Except.noConfusion hh)
  | .ok _, .error _ => .isFalse (fun hh => Except.noConfusion hh)

/-- Optional leading sign; returns (is-negative, remainder). -/
def parseSign (l : List Char) : Bool × List Char :=
  match l with
  | c :: cs => if c = '+' then (false, cs) else if c = '-' then (true, cs) else (false, l)
  | [] => (false, l)

/-- Continuation of a digit run allowing PEP-515 underscores strictly
between digits. -/
def digitsUGo : List Char → List Char × List Char
  | [] => ([], [])
  | c :: cs =>
    if isDigitC c then
      let r := digitsUGo cs
      (c :: r.1, r.2)
    else if c = '_' then
      match cs with
      | c2 :: cs2 =>
        if isDigitC c2 then
          let r := digitsUGo cs2
          (c2 :: r.1, r.2)
        else ([], c :: cs)
      | [] => ([], [c])
    else ([], c :: cs)

/-- A digit run (with underscores between digits); must start with a digit. -/
def digitsU (l : List Char) : List Char × List Char :=
  match l with
  | c :: cs => if isDigitC c then ((digitsUGo cs).1.cons c, (digitsUGo cs).2) else ([], l)
  | [] => ([], [])

/-- Exact value of a parsed float literal from its integer part, fractional
part, exponent sign and exponent digits:
`(ip.fp) * 10^(±e)` as a rational in lowest terms. -/
def ratOfParts (neg : Bool) (ip fp : List Char) (eneg : Bool) (ed : List Char) : Rat :=
  let m : Int := (natOfDigits (ip ++ fp) : Int)
  let e : Nat := natOfDigits ed
  let v : Rat :=
    if eneg then mkRat m (10 ^ (fp.length + e))
    else mkRat (m * (10 ^ e : Nat)) (10 ^ fp.length)
  if neg then -v else v

/-- The number branch of `float()`: `digits [. digits] [exponent]` with at
least one mantissa digit. -/
def numberPartF (neg : Bool) (l1 : List Char) : Option PyFloat :=
  let r1 := digitsU l1
  let ip := r1.1
  let l2 := r1.2
  let r2 : List Char × List Char :=
    match l2 with
    | c :: cs => if c = '.' then digitsU cs else ([], l2)
    | [] => ([], l2)
  let fp := r2.1
  let l3 := r2.2
  if ip = [] ∧ fp = [] then none
  else
    match l3 with
    | [] => some (.fin (ratOfParts neg ip fp false []))
    | c :: cs =>
      if c = 'e' ∨ c = 'E' then
        let sr := parseSign cs
        let rd := digitsU sr.2
        if rd.1 ≠ [] ∧ rd.2 = [] then some (.fin (ratOfParts neg ip fp sr.1 rd.1))
        else none
      else none

/-- `float(s)`: strips whitespace, optional sign, then either a (case
insensitive) `inf`/`infinity`/`nan` word or a number literal.  `none`
models `ValueError`. -/
def pyFloat? (s : String) : Option PyFloat :=
  let l := pyStripL s.toList
  let sr := parseSign l
  let neg := sr.1
  let l1 := sr.2
  if isLetterC (l1.headD '0') then
    let low := l1.map lowerChar
    if low = "inf".toList ∨ low = "infinity".toList then some (.inf neg)
    else if low = "nan".toList then some .nan
    else none
  else numberPartF neg l1

/-! ### The numeric classifier `to_number` and `NUM_RE` -/

/-- `s.strip().strip(dquote).strip(squote)` as done at the top of
`to_number`. -/
def stripQuoted (s : String) : String :=
  stripChar (Char.ofNat 39) (stripChar (Char.ofNat 34) (pyStrip s))

/-- `s.replace(",", "")`. -/
def stripCommas (s : String) : String :=
  String.mk (s.toList.filter (fun c => decide (¬ c = ',')))

/-- `to_number` from the source: empty input yields the empty string; else
strip whitespace and quotes, drop thousands separators, and try `float`;
on failure return the stripped string. -/
def to_number (s : String) : PyVal :=
  if s = "" then PyVal.str ""
  else
    let t := stripQuoted s
    match pyFloat? (stripCommas t) with
    | some f => PyVal.num f
    | none => PyVal.str t

/-- `NUM_RE`: full match of `[\d,]+(\.\d+)?`. -/
def NUM_RE (s : String) : Bool :=
  let l := s.toList
  let pre := l.takeWhile (fun c => isDigitC c || decide (c = ','))
  let rest := l.dropWhile (fun c => isDigitC c || decide (c = ','))
  decide (pre ≠ []) &&
    (match rest with
     | [] => true
     | c :: cs => decide (c = '.') && decide (cs ≠ []) && cs.all isDigitC)

/-- Does the string contain at least one ASCII digit? -/
def hasDigit (s : String) : Bool := s.toList.any isDigitC

/-! ### Date parsing (`DATE_TOKEN_RE`, `strptime "%b %d %Y"`, ISO output) -/

/-- `DATE_TOKEN_RE`: full match of `[A-Za-z]{3}\d{1,2}\d{4}` (three letters
followed by five or six digits). -/
def DATE_TOKEN_RE (s : String) : Bool :=
  let l := s.toList
  decide (l.length = 8 ∨ l.length = 9) &&
    (l.take 3).all isLetterC && (l.drop 3).all isDigitC

/-- Case-insensitive month-abbreviation table used by `strptime`'s `%b`. -/
def monthNum (s : String) : Option Nat :=
  let low := String.mk (s.toList.map lowerChar)
  if low = "jan" then some 1 else if low = "feb" then some 2
  else if low = "mar" then some 3 else if low = "apr" then some 4
  else if low = "may" then some 5 else if low = "jun" then some 6
  else if low = "jul" then some 7 else if low = "aug" then some 8
  else if low = "sep" then some 9 else if low = "oct" then some 10
  else if low = "nov" then some 11 else if low = "dec" then some 12
  else none

/-- `%d` of `strptime`: `3[01]|[12]\d|0[1-9]|[1-9]` -- one or two digits
giving a day in 1..31, a leading zero only for 1..9. -/
def dayNum (s : String) : Option Nat :=
  match s.toList with
  | [c] => if isDigitC c ∧ c ≠ '0' then some (c.toNat - 48) else none
  | [c, d] =>
    if isDigitC c ∧ isDigitC d then
      let n := (c.toNat - 48) * 10 + (d.toNat - 48)
      if 1 ≤ n ∧ n ≤ 31 then some n else none
    else none
  | _ => none

/-- `%Y` of `strptime`: exactly four digits. -/
def yearNum (s : String) : Option Nat :=
  match s.toList with
  | [a, b, c, d] =>
    if isDigitC a ∧ isDigitC b ∧ isDigitC c ∧ isDigitC d then
      some (natOfDigits [a, b, c, d])
    else none
  | _ => none

/-- Gregorian leap year, as the `datetime` module computes it. -/
def leapB (y : Nat) : Bool := decide (y % 4 = 0 ∧ (y % 100 ≠ 0 ∨ y % 400 = 0))

/-- Days in month `m` of year `y` (months numbered from 1). -/
def daysInMonth (m y : Nat) : Nat :=
  [31, if leapB y then 29 else 28, 31, 30, 31, 30, 31, 31, 30, 31, 30, 31].getD (m - 1) 0

/-- `datetime.strptime(f"mon day year", "%b %d %Y")` modelled as the parsed
(year, month, day), or `none` for the `ValueError` cases: bad components,
year 0, or a calendar-invalid day. -/
def strptimeValid (mon day year : String) : Option (Nat × Nat × Nat) :=
  match monthNum mon, dayNum day, yearNum year with
  | some m, some d, some y =>
    if 1 ≤ y ∧ d ≤ daysInMonth m y then some (y, m, d) else none
  | _, _, _ => none

/-- Zero-padded two-digit field of `strftime` (`%m`, `%d`). -/
def pad2 (n : Nat) : String := if n < 10 then "0" ++ toString n else toString n

/-- `strftime("%Y-%m-%d")`.  (`%Y` is unpadded on the platform; all years in
scope are four digits.) -/
def isoOfYMD (y m d : Nat) : String :=
  toString y ++ "-" ++ pad2 m ++ "-" ++ pad2 d

/-- `format_date_token` from the source: split `MonDDYYYY` fixed-width from
the right, try `strptime`; on failure (ValueError) return the token itself
unchanged. -/
def format_date_token (tok : String) : String :=
  let l := tok.toList
  let month := String.mk (l.take 3)
  let mid := l.drop 3
  let day := String.mk (mid.take (mid.length - 4))
  let year := String.mk (l.drop (l.length - 4))
  match strptimeValid month day year with
  | some (y, m, d) => isoOfYMD y m d
  | none => tok

/-- The anchored match `^([A-Za-z]{3})\s+(\d{1,2})\s+(\d{4})\s+(.+)$`,
returning month, day, year and the raw `rest` group.  Follows the regex's
backtracking on the specific pattern: the digit runs must be maximal runs of
the stated widths, and a whitespace-only tail matches only when it is at
least two characters long (the `\s+` gives one back to `.+`). -/
def threePartMatch (l : List Char) : Option (String × String × String × String) :=
  let m := l.take 3
  if m.length = 3 ∧ m.all isLetterC then
    let l1 := l.drop 3
    let ws1 := l1.takeWhile isPySpace
    let l2 := l1.dropWhile isPySpace
    if ws1 ≠ [] then
      let day := l2.takeWhile isDigitC
      let l3 := l2.dropWhile isDigitC
      if day ≠ [] ∧ day.length ≤ 2 then
        let ws2 := l3.takeWhile isPySpace
        let l4 := l3.dropWhile isPySpace
        if ws2 ≠ [] then
          let yr := l4.takeWhile isDigitC
          let l5 := l4.dropWhile isDigitC
          if yr.length = 4 then
            let ws3 := l5.takeWhile isPySpace
            let l6 := l5.dropWhile isPySpace
            if ws3 ≠ [] then
              if l6 = [] then
                if 2 ≤ ws3.length then
                  some (String.mk m, String.mk day, String.mk yr, String.mk [ws3.getLast!])
                else none
              else some (String.mk m, String.mk day, String.mk yr, String.mk l6)
            else none
          else none
        else none
      else none
    else none
  else none

/-- `parse_line_with_three_part_date`: regex match, then `strptime`
validation; returns `(None, None)` on either failure, else the ISO date and
the stripped rest of the line. -/
def parse_line_with_three_part_date (line : String) : Option String × Option String :=
  match threePartMatch line.toList with
  | none => (none, none)
  | some (mon, day, year, rest) =>
    match strptimeValid mon day year with
    | some (y, m, d) => (some (isoOfYMD y m d), some (pyStrip rest))
    | none => (none, none)

/-- `extract_date_and_rest`: if the first whitespace token matches the fused
date shape, format it (possibly returning the raw token) and rejoin the
remainder with single spaces; otherwise try the three-part form. -/
def extract_date_and_rest (line : String) : Option String × Option String :=
  match splitWs line with
  | tok :: ts =>
    if DATE_TOKEN_RE tok then (some (format_date_token tok), some (joinSpace ts))
    else parse_line_with_three_part_date line
  | [] => parse_line_with_three_part_date line

/-! ### Line segmentation and action resolution -/

/-- `split_description_and_numbers`: tokens before the first numeric-shaped
token (optionally negative-signed) form the description; every token from
the first numeric one onward is kept as a numeric token. -/
def split_description_and_numbers (s : String) : String × List String :=
  let step := fun (acc : Bool × List String × List String) (p : String) =>
    let found := acc.1
    if ¬ found ∧ (NUM_RE p || (startsWithPy p "-" && NUM_RE (String.mk (p.toList.drop 1)))) then
      (true, acc.2.1, acc.2.2 ++ [p])
    else if found then (true, acc.2.1, acc.2.2 ++ [p])
    else (false, acc.2.1 ++ [p], acc.2.2)
  let r := (splitWs s).foldl step (false, [], [])
  (joinSpace r.2.1, r.2.2)

/-- The configuration values the parser reads at startup (`config.ini`
sections `actions`, `accounts`, `transfer_accounts`, `governement_grants`).
Mapping tables keep file order, as `configparser` dicts do. -/
structure Config where
  actionMap : List (String × String)
  accountMap : List (String × String)
  reinvest : String
  cashSuffix : String
  respGrant : String
deriving DecidableEq, Repr

/-- Dict lookup returning `none` for a missing key (the `KeyError` case is
handled at the call sites). -/
def lookupMap (m : List (String × String)) (k : String) : Option String :=
  match m.find? (fun kv => decide (kv.1 = k)) with
  | some kv => some kv.2
  | none => none

/-- `match_action`: normalize by removing spaces and hyphens and
lower-casing, then return the canonical action of the first configured key
whose normalization occurs inside the normalized keyword. -/
def normKey (s : String) : String :=
  String.mk ((pyReplace (pyReplace s " " "") "-" "").toList.map lowerChar)

def match_action (cfg : Config) (kind : String) : String :=
  let kn := normKey kind
  match cfg.actionMap.find? (fun kv => containsSub kn (normKey kv.1)) with
  | some kv => kv.2
  | none => ""

/-! ### The output record and the two record builders -/

/-- One output row.  Field names follow the Python dict keys (the
`Trancfer Account` misspelling is preserved in the serialized header; here
the field is `transferAccount`). -/
structure Record where
  date : String
  description : String
  action : String
  value : PyVal
  price : PyVal
  amount : PyVal
  account : String
  transferAccount : String
  unitsPost : PyVal
  totalValue : PyVal
  fundCode : String
  fundName : String
deriving DecidableEq, Repr

/-- `parse_activity_line`: gate on a leading date, a non-empty remainder and
a raw-substring hit of any configured action key; resolve the action from
the remainder's first token; need at least five numeric tokens, taking the
last five; the `ACCOUNT_MAP[account_number]` lookup raises `KeyError`
(modelled as `Except.error`) when the account has no alias. -/
def parse_activity_line (cfg : Config) (line fund_code fund_name source_file
    account_number : String) : Except String (Option Record) :=
  let dr := extract_date_and_rest line
  match dr with
  | (some date_disp, some rest) =>
    if date_disp ≠ "" ∧ rest ≠ "" ∧
        cfg.actionMap.any (fun kv => containsSub rest kv.1) then
      let action := match_action cfg ((splitWs rest).headD "")
      let dn := split_description_and_numbers rest
      let description := dn.1
      let nums := dn.2
      if 5 ≤ nums.length then
        let amount := nums.getD (nums.length - 5) ""
        let unit_price := nums.getD (nums.length - 4) ""
        let units_txn := nums.getD (nums.length - 3) ""
        let units_post := nums.getD (nums.length - 2) ""
        let total_val := nums.getD (nums.length - 1) ""
        match lookupMap cfg.accountMap account_number with
        | none => .error ("KeyError: " ++ account_number)
        | some aliasV =>
          let transfer_account :=
            if action = "Reinvest" then cfg.reinvest else aliasV ++ ":" ++ cfg.cashSuffix
          .ok (some
            { date := date_disp
              description := description ++ " src = " ++ source_file
              action := action
              value := to_number amount
              price := to_number unit_price
              amount := to_number units_txn
              account := aliasV ++ ":" ++ fund_code
              transferAccount := transfer_account
              unitsPost := PyVal.str units_post
              totalValue := PyVal.str total_val
              fundCode := fund_code
              fundName := fund_name })
      else .ok none
    else .ok none
  | _ => .ok none

/-- `parse_savings_line`: same gating; needs at least two numeric tokens
(amount, total value); price/amount/units/fund-code fields stay blank; the
account alias lookup can likewise raise `KeyError`. -/
def parse_savings_line (cfg : Config) (line fund_name source_file
    account_number : String) : Except String (Option Record) :=
  let dr := extract_date_and_rest line
  match dr with
  | (some date_disp, some rest) =>
    if date_disp ≠ "" ∧ rest ≠ "" ∧
        cfg.actionMap.any (fun kv => containsSub rest kv.1) then
      let action := match_action cfg ((splitWs rest).headD "")
      let dn := split_description_and_numbers rest
      let description := dn.1
      let nums := dn.2
      if 2 ≤ nums.length then
        let amount := nums.getD (nums.length - 2) ""
        let total_val := nums.getD (nums.length - 1) ""
        match lookupMap cfg.accountMap account_number with
        | none => .error ("KeyError: " ++ account_number)
        | some aliasV =>
          let transfer_account :=
            if action = "Reinvest" then cfg.reinvest else aliasV ++ ":" ++ cfg.cashSuffix
          .ok (some
            { date := date_disp
              description := description ++ " src = " ++ source_file
              action := action
              value := to_number amount
              price := PyVal.str ""
              amount := PyVal.str ""
              account := aliasV ++ ":SavingsDeposit"
              transferAccount := transfer_account
              unitsPost := PyVal.str ""
              totalValue := to_number total_val
              fundCode := ""
              fundName := fund_name })
      else .ok none
    else .ok none
  | _ => .ok none

/-! ### The section/fund state machine (`extract_from_pdf_text`) -/

/-- Section kind while inside a section. -/
inductive SecType where
  | mutualS
  | savingsS
deriving DecidableEq, Repr

/-- The mutable locals of the per-page scan loop. -/
structure ScanState where
  in_section : Bool
  section_type : Option SecType
  current_fund_code : String
  current_fund_name : String
  pending_return : Option Record
deriving DecidableEq, Repr

/-- The state the loop variables are initialized to (and that a footer line
restores). -/
def initState : ScanState :=
  { in_section := false, section_type := none, current_fund_code := "",
    current_fund_name := "", pending_return := none }

/-- The page-footer heuristic: `line.startswith("Page") and "of" in line`. -/
def isFooter (line : String) : Bool :=
  startsWithPy line "Page" && containsSub line "of"

/-- The savings fund-header heuristic:
`"Savings Deposit" in line and "RBC" in line`. -/
def isSavingsHeader (line : String) : Bool :=
  containsSub line "Savings Deposit" && containsSub line "RBC"

/-- Tail of the fund-header regex after the lazily chosen name prefix:
`\s*\((RBF\d{3})\)(?:\s*\(continued\))?$`; returns the fund code. -/
def fhTail (cs : List Char) : Option String :=
  match cs.dropWhile isPySpace with
  | '(' :: 'R' :: 'B' :: 'F' :: d1 :: d2 :: d3 :: ')' :: t =>
    if isDigitC d1 ∧ isDigitC d2 ∧ isDigitC d3 ∧
        (t = [] ∨ t.dropWhile isPySpace = "(continued)".toList) then
      some (String.mk ['R', 'B', 'F', d1, d2, d3])
    else none
  | _ => none

/-- Leftmost-shortest choice of the lazy `(.+?)` prefix of the fund-header
regex `(.+?)\s*\((RBF\d{3})\)(?:\s*\(continued\))?$`. -/
def fundHeaderGo (pre : List Char) : List Char → Option (String × String)
  | [] => none
  | c :: cs =>
    match fhTail cs with
    | some code => some (pyStrip (String.mk (pre ++ [c])), code)
    | none => fundHeaderGo (pre ++ [c]) cs

/-- `re.match` of the fund-header pattern on a line, returning stripped fund
name and fund code. -/
def fundHeader (line : String) : Option (String × String) :=
  fundHeaderGo [] line.toList

/-- The parenthesized-price pattern `^\(([\d,]+\.\d+)\)$`, returning the
inner group. -/
def pricePat (line : String) : Option String :=
  match line.toList with
  | '(' :: rest =>
    match rest.reverse with
    | ')' :: bodyRev =>
      let body := bodyRev.reverse
      let pre := body.takeWhile (fun c => isDigitC c || decide (c = ','))
      let after := body.dropWhile (fun c => isDigitC c || decide (c = ','))
      match after with
      | '.' :: fr =>
        if pre ≠ [] ∧ fr ≠ [] ∧ fr.all isDigitC then some (String.mk body) else none
      | _ => none
    | _ => none
  | _ => none

/-- The `not in_section` part of the loop: section-marker detection. -/
def enterSection (st : ScanState) (line : String) : ScanState :=
  if containsSub line "Your investment activity with Royal Mutual Funds Inc." then
    { st with in_section := true, section_type := some SecType.mutualS }
  else if containsSub line "Your savings deposit activity" then
    { st with
        in_section := true
        section_type := some SecType.savingsS
        current_fund_name := "RBC Savings Deposit"
        current_fund_code := "" }
  else st

/-- The derived grant-offset record built when a mutual-fund record's
description starts with `Grant` or `PGQC`. -/
def grantCompanion (cfg : Config) (rec : Record) : Record :=
  { date := rec.date
    description := rec.description
    action := rec.action
    value := rec.value
    price := PyVal.str ""
    amount := PyVal.str ""
    account := pyReplace rec.account rec.fundCode cfg.cashSuffix
    transferAccount := cfg.respGrant
    unitsPost := PyVal.str ""
    totalValue := PyVal.str ""
    fundCode := ""
    fundName := "" }

/-- Dispatch of an in-section line to the record builder of the current
section kind, including the grant-companion side effect of the mutual
branch.  The scanner state is never changed here. -/
def dispatchBuilders (cfg : Config) (acct src : String) (st : ScanState)
    (line : String) : Except String (ScanState × List Record) :=
  match st.section_type with
  | some SecType.mutualS =>
    match parse_activity_line cfg line st.current_fund_code st.current_fund_name src acct with
    | .error e => .error e
    | .ok none => .ok (st, [])
    | .ok (some rec) =>
      if startsWithPy rec.description "Grant" || startsWithPy rec.description "PGQC" then
        .ok (st, [rec, grantCompanion cfg rec])
      else .ok (st, [rec])
  | some SecType.savingsS =>
    match parse_savings_line cfg line
        (if st.current_fund_name = "" then "RBC Savings Deposit" else st.current_fund_name)
        src acct with
    | .error e => .error e
    | .ok none => .ok (st, [])
    | .ok (some rec) => .ok (st, [rec])
  | none => .ok (st, [])

/-- One iteration of the line loop of `extract_from_pdf_text`: strip the raw
line, then in priority order handle section entry, page footer, fund
header, savings header, pending-price completion, and builder dispatch. -/
def stepLine (cfg : Config) (acct src : String) (st : ScanState)
    (raw : String) : Except String (ScanState × List Record) :=
  let line := pyStrip raw
  if st.in_section then
    if isFooter line then .ok (initState, [])
    else
      match fundHeader line with
      | some nc =>
        .ok ({ st with current_fund_name := nc.1, current_fund_code := nc.2 }, [])
      | none =>
        if isSavingsHeader line then
          .ok ({ st with
                   current_fund_name := "RBC Savings Deposit"
                   current_fund_code := "" }, [])
        else
          match pricePat line, st.pending_return with
          | some g, some pend =>
            -- The Python sets a fresh dict key `Unit price ($)` on the pending
            -- record before appending it; modelled on the price field.  The
            -- branch is unreachable: pending_return is never populated (C9).
            .ok ({ st with pending_return := none }, [{ pend with price := PyVal.str g }])
          | _, _ => dispatchBuilders cfg acct src st line
  else .ok (enterSection st line, [])

/-- `stepLine` with the pending-price completion branch removed; used to
state that the branch is dead code (claim C9). -/
def stepLineNoPrice (cfg : Config) (acct src : String) (st : ScanState)
    (raw : String) : Except String (ScanState × List Record) :=
  let line := pyStrip raw
  if st.in_section then
    if isFooter line then .ok (initState, [])
    else
      match fundHeader line with
      | some nc =>
        .ok ({ st with current_fund_name := nc.1, current_fund_code := nc.2 }, [])
      | none =>
        if isSavingsHeader line then
          .ok ({ st with
                   current_fund_name := "RBC Savings Deposit"
                   current_fund_code := "" }, [])
        else dispatchBuilders cfg acct src st line
  else .ok (enterSection st line, [])

/-- The line loop over one page's lines, accumulating emitted records. -/
def scanLines (cfg : Config) (acct src : String) :
    ScanState → List String → Except String (ScanState × List Record)
  | st, [] => .ok (st, [])
  | st, raw :: rest =>
    match stepLine cfg acct src st raw with
    | .error e => .error e
    | .ok (st2, rs) =>
      match scanLines cfg acct src st2 rest with
      | .error e => .error e
      | .ok (st3, rs2) => .ok (st3, rs ++ rs2)

/-- The line loop built on `stepLineNoPrice` (see C9). -/
def scanLinesNoPrice (cfg : Config) (acct src : String) :
    ScanState → List String → Except String (ScanState × List Record)
  | st, [] => .ok (st, [])
  | st, raw :: rest =>
    match stepLineNoPrice cfg acct src st raw with
    | .error e => .error e
    | .ok (st2, rs) =>
      match scanLinesNoPrice cfg acct src st2 rest with
      | .error e => .error e
      | .ok (st3, rs2) => .ok (st3, rs ++ rs2)

/-! ### Account-number discovery -/

/-- First `\b\d{6,12}\b` match in a character list: a maximal digit run of
length 6..12 delimited by non-word characters or the string ends. -/
def findRun : Bool → List Char → Option String
  | _, [] => none
  | prev, c :: cs =>
    if isDigitC c ∧ prev = false then
      let run := c :: cs.takeWhile isDigitC
      let rest := cs.dropWhile isDigitC
      if 6 ≤ run.length ∧ run.length ≤ 12 ∧ isWordC (rest.headD ' ') = false then
        some (String.mk run)
      else findRun (isWordC c) cs
    else findRun (isWordC c) cs

/-- `extract_account_number`: at each line containing the label, search the
following line for the first 6-12 digit run; keep scanning on failure. -/
def extract_account_number : List String → Option String
  | [] => none
  | l :: rest =>
    if containsSub l "Your account number" then
      match rest with
      | [] => none
      | nxt :: _ =>
        match findRun false nxt.toList with
        | some r => some r
        | none => extract_account_number rest
    else extract_account_number rest

/-! ### The document driver -/

/-- The page loop of `extract_from_pdf_text`: page 1 (re)extracts the
account number; a missing account number on page 1 aborts the document
(ValueError); every page restarts the scanner from `initState`. -/
def extractGo (cfg : Config) (src : String) :
    Option String → Nat → List (List String) → Except String (List Record)
  | _, _, [] => .ok []
  | acct, n, pg :: rest =>
    let acct2 := if n = 1 then extract_account_number pg else acct
    match acct2 with
    | none => .error ("Account number not found in PDF: " ++ src)
    | some a =>
      match scanLines cfg a src initState pg with
      | .error e => .error e
      | .ok (_, rs) =>
        match extractGo cfg src (some a) (n + 1) rest with
        | .error e => .error e
        | .ok rs2 => .ok (rs ++ rs2)

/-- `extract_from_pdf_text` over the page texts of one document (each page
given as its list of lines). -/
def extract_from_pdf_text (cfg : Config) (src : String)
    (pages : List (List String)) : Except String (List Record) :=
  extractGo cfg src none 1 pages

/-- Modelled from the spec: the variant of the page loop the spec's sentence
"state does NOT automatically reset just because a new page started; only a
detected footer line resets it" describes -- the scanner state is threaded
across the page boundary instead of being re-initialized.  Used only to
refute claim C2 against the source's behaviour. -/
def extractCarryGo (cfg : Config) (src : String) :
    Option String → Nat → ScanState → List (List String) → Except String (List Record)
  | _, _, _, [] => .ok []
  | acct, n, st, pg :: rest =>
    let acct2 := if n = 1 then extract_account_number pg else acct
    match acct2 with
    | none => .error ("Account number not found in PDF: " ++ src)
    | some a =>
      match scanLines cfg a src st pg with
      | .error e => .error e
      | .ok (st2, rs) =>
        match extractCarryGo cfg src (some a) (n + 1) st2 rest with
        | .error e => .error e
        | .ok rs2 => .ok (rs ++ rs2)

/-- Modelled from the spec: document scan with scanner state carried across
pages (see `extractCarryGo`). -/
def extractCarry (cfg : Config) (src : String)
    (pages : List (List String)) : Except String (List Record) :=
  extractCarryGo cfg src none 1 initState pages

/-! ### Concrete data used by witnesses and counterexamples -/

/-- A concrete configuration of the shape `config.ini` supplies. -/
def cfgEx : Config :=
  { actionMap := [("Contribution", "Buy")]
    accountMap := [("123456", "MyAcct")]
    reinvest := "ReinvAcct"
    cashSuffix := "Cash"
    respGrant := "GrantAcct" }

/-! ### Claim C3: fused-date tokens with invalid calendar components -/

/-- C3 (counterexample): the claim says the date classifier returns
none/failure on a syntactically valid but calendar-invalid fused token such
as `Feb302025`, so that segmentation treats the line as having no date.  In
fact `format_date_token` returns the token itself, and segmentation
returns it as the line's date component. -/
theorem c3_counterexample :
    DATE_TOKEN_RE "Feb302025" = true ∧
    strptimeValid "Feb" "30" "2025" = none ∧
    format_date_token "Feb302025" = "Feb302025" ∧
    extract_date_and_rest "Feb302025 Contribution 200.00 3,301.22" =
      (some "Feb302025", some "Contribution 200.00 3,301.22") := by
  decide

/-- C3 (amended): for every token of the fused-date shape whose components
fail `strptime` validation (including calendar-invalid dates), the
classifier returns the token itself unchanged -- it does not crash and does
not fail -- and a line starting with such a token is segmented with the raw
token as its date and the rejoined remaining tokens as the remainder. -/
theorem c3_invalid_date_token_passthrough (tok : String)
    (hre : DATE_TOKEN_RE tok = true)
    (hbad : strptimeValid (String.mk (tok.toList.take 3))
        (String.mk ((tok.toList.drop 3).take ((tok.toList.drop 3).length - 4)))
        (String.mk (tok.toList.drop (tok.toList.length - 4))) = none) :
    format_date_token tok = tok ∧
    ∀ line ts, splitWs line = tok :: ts →
      extract_date_and_rest line = (some tok, some (joinSpace ts)) := by
  have hfmt : format_date_token tok = tok := by
    simp only [format_date_token]
    rw [hbad]
  refine ⟨hfmt, ?_⟩
  intro line ts hsplit
  simp only [extract_date_and_rest]
  rw [hsplit]
  simp only [hre, if_true, hfmt]

/-- C3 (witness): the amended theorem applied at the token `Feb302025`. -/
theorem c3_witness :
    format_date_token "Feb302025" = "Feb302025" ∧
    extract_date_and_rest "Feb302025 Contribution 100.00" =
      (some "Feb302025", some "Contribution 100.00") := by
  have h := c3_invalid_date_token_passthrough "Feb302025" (by decide) (by decide)
  refine ⟨h.1, ?_⟩
  have h2 := h.2 "Feb302025 Contribution 100.00" ["Contribution", "100.00"] (by decide)
  rw [h2]
  decide

/-! ### Claim C10: a record with an empty Action field -/

/-- The record produced by the C10 line: the gate sees `Contribution`
somewhere in the remainder, but the action is resolved from the first
token `XYZ`, which matches no key. -/
def c10rec : Record :=
  { date := "2022-04-12"
    description := "XYZ Contribution src = f.pdf"
    action := ""
    value := PyVal.num (PyFloat.fin 100)
    price := PyVal.num (PyFloat.fin 2)
    amount := PyVal.num (PyFloat.fin 50)
    account := "MyAcct:RBF123"
    transferAccount := "MyAcct:Cash"
    unitsPost := PyVal.str "950.00"
    totalValue := PyVal.str "1,900.00"
    fundCode := "RBF123"
    fundName := "FundX" }

/-- C10: some input line produces a record whose Action is the empty
string: the builders gate on a configured action key appearing as a raw
substring anywhere in the post-date remainder, but resolve the action from
the first token only, so a line whose keyword appears later yields a record
with `Action = ""`. -/
theorem c10_empty_action_record :
    ∃ r : Record,
      parse_activity_line cfgEx "Apr122022 XYZ Contribution 100.00 2.00 50.00 950.00 1,900.00"
        "RBF123" "FundX" "f.pdf" "123456" = .ok (some r) ∧
      r.action = "" ∧ containsSub "XYZ Contribution 100.00 2.00 50.00 950.00 1,900.00" "Contribution" = true :=
  ⟨c10rec, by decide, by decide, by decide⟩

/-! ### Claim C1: unmapped account numbers -/

/-- The conditions under which `parse_activity_line` reaches the
`ACCOUNT_MAP[account_number]` lookup: date and remainder extracted and
non-empty, some configured action key occurs in the remainder, and at least
five numeric tokens were segmented. -/
def mutualQualifiesB (cfg : Config) (line : String) : Bool :=
  match extract_date_and_rest line with
  | (some d, some rest) =>
    decide (d ≠ "") && decide (rest ≠ "") &&
      cfg.actionMap.any (fun kv => containsSub rest kv.1) &&
      decide (5 ≤ (split_description_and_numbers rest).2.length)
  | _ => false

/-- Likewise for `parse_savings_line`, which needs only two numeric
tokens. -/
def savingsQualifiesB (cfg : Config) (line : String) : Bool :=
  match extract_date_and_rest line with
  | (some d, some rest) =>
    decide (d ≠ "") && decide (rest ≠ "") &&
      cfg.actionMap.any (fun kv => containsSub rest kv.1) &&
      decide (2 ≤ (split_description_and_numbers rest).2.length)
  | _ => false

/-- C1 (counterexample): the claim says that when the account number has no
entry in the alias mapping, the builder returns nothing rather than raising
an error.  On this qualifying line with the unmapped account `999999` the
mutual-fund builder raises a `KeyError` (modelled as `Except.error`). -/
theorem c1_counterexample :
    lookupMap cfgEx.accountMap "999999" = none ∧
    parse_activity_line cfgEx "Apr122022 Contribution 100.00 2.00 50.00 950.00 1,900.00"
      "RBF460" "FundX" "f.pdf" "999999" = .error "KeyError: 999999" ∧
    parse_activity_line cfgEx "Apr122022 Contribution 100.00 2.00 50.00 950.00 1,900.00"
      "RBF460" "FundX" "f.pdf" "999999" ≠ .ok none := by
  decide

/-- C1 (amended): with an unmapped account number, each builder raises a
lookup error (`KeyError`) exactly when the line qualifies (date found,
action keyword present, enough numeric tokens); a line that fails those
earlier checks returns nothing without ever consulting the mapping. -/
theorem c1_unmapped_account (cfg : Config) (line fc fn src acct : String)
    (hmiss : lookupMap cfg.accountMap acct = none) :
    (mutualQualifiesB cfg line = true →
      parse_activity_line cfg line fc fn src acct = .error ("KeyError: " ++ acct)) ∧
    (mutualQualifiesB cfg line = false →
      parse_activity_line cfg line fc fn src acct = .ok none) ∧
    (savingsQualifiesB cfg line = true →
      parse_savings_line cfg line fn src acct = .error ("KeyError: " ++ acct)) ∧
    (savingsQualifiesB cfg line = false →
      parse_savings_line cfg line fn src acct = .ok none) := by
  cases hdr : extract_date_and_rest line with
  | mk dOpt rOpt =>
    refine ⟨?_, ?_, ?_, ?_⟩ <;> intro hq <;>
      simp only [mutualQualifiesB, savingsQualifiesB, hdr] at hq <;>
      simp only [parse_activity_line, parse_savings_line, hdr]
    · match dOpt, rOpt, hq with
      | some d, some rest, hq =>
        simp only [Bool.and_eq_true, decide_eq_true_eq] at hq
        dsimp only
        rw [if_pos ⟨hq.1.1.1, hq.1.1.2, hq.1.2⟩, if_pos hq.2, hmiss]
    · match dOpt, rOpt with
      | none, _ => rfl
      | some d, none => rfl
      | some d, some rest =>
        dsimp only at hq ⊢
        by_cases hgate : d ≠ "" ∧ rest ≠ "" ∧
            cfg.actionMap.any (fun kv => containsSub rest kv.1) = true
        · rw [if_pos hgate]
          have h5 : ¬ 5 ≤ (split_description_and_numbers rest).2.length := by
            intro h5
            have ht : ((decide (d ≠ "") && decide (rest ≠ "") &&
                cfg.actionMap.any fun kv => containsSub rest kv.1) &&
                decide (5 ≤ (split_description_and_numbers rest).2.length)) = true := by
              simp only [Bool.and_eq_true, decide_eq_true_eq]
              exact ⟨⟨⟨hgate.1, hgate.2.1⟩, hgate.2.2⟩, h5⟩
            rw [ht] at hq
            exact Bool.noConfusion hq
          rw [if_neg h5]
        · rw [if_neg hgate]
    · match dOpt, rOpt, hq with
      | some d, some rest, hq =>
        simp only [Bool.and_eq_true, decide_eq_true_eq] at hq
        dsimp only
        rw [if_pos ⟨hq.1.1.1, hq.1.1.2, hq.1.2⟩, if_pos hq.2, hmiss]
    · match dOpt, rOpt with
      | none, _ => rfl
      | some d, none => rfl
      | some d, some rest =>
        dsimp only at hq ⊢
        by_cases hgate : d ≠ "" ∧ rest ≠ "" ∧
            cfg.actionMap.any (fun kv => containsSub rest kv.1) = true
        · rw [if_pos hgate]
          have h2 : ¬ 2 ≤ (split_description_and_numbers rest).2.length := by
            intro h2
            have ht : ((decide (d ≠ "") && decide (rest ≠ "") &&
                cfg.actionMap.any fun kv => containsSub rest kv.1) &&
                decide (2 ≤ (split_description_and_numbers rest).2.length)) = true := by
              simp only [Bool.and_eq_true, decide_eq_true_eq]
              exact ⟨⟨⟨hgate.1, hgate.2.1⟩, hgate.2.2⟩, h2⟩
            rw [ht] at hq
            exact Bool.noConfusion hq
          rw [if_neg h2]
        · rw [if_neg hgate]

/-- C1 (witness): the amended theorem applied to the savings builder on a
qualifying line with the unmapped account `999999`. -/
theorem c1_witness :
    parse_savings_line cfgEx "Apr122022 Contribution 200.00 3,301.22"
      "RBC Savings Deposit" "f.pdf" "999999" = .error "KeyError: 999999" :=
  (c1_unmapped_account cfgEx "Apr122022 Contribution 200.00 3,301.22" ""
    "RBC Savings Deposit" "f.pdf" "999999" (by decide)).2.2.1 (by decide)

/-! ### Claim C5: mutual-fund lines and the last-five-numeric-tokens rule -/

/-- C5: for a mutual-fund line with an extracted date, a configured action
keyword in the remainder and a mapped account: with at least five numeric
tokens the builder emits exactly the record whose Value, Price, Amount come
from the first three of the last five numeric tokens and whose Units-post
and Total-value come from the last two; with fewer than five numeric tokens
it returns nothing and raises no error. -/
theorem c5_mutual_last_five (cfg : Config)
    (line fc fn src acct aliasV d rest desc : String) (nums : List String)
    (hdr : extract_date_and_rest line = (some d, some rest))
    (hd : d ≠ "") (hr : rest ≠ "")
    (hkey : cfg.actionMap.any (fun kv => containsSub rest kv.1) = true)
    (hsplit : split_description_and_numbers rest = (desc, nums))
    (hacct : lookupMap cfg.accountMap acct = some aliasV) :
    (5 ≤ nums.length →
      parse_activity_line cfg line fc fn src acct = .ok (some
        { date := d
          description := desc ++ " src = " ++ src
          action := match_action cfg ((splitWs rest).headD "")
          value := to_number (nums.getD (nums.length - 5) "")
          price := to_number (nums.getD (nums.length - 4) "")
          amount := to_number (nums.getD (nums.length - 3) "")
          account := aliasV ++ ":" ++ fc
          transferAccount := if match_action cfg ((splitWs rest).headD "") = "Reinvest"
            then cfg.reinvest else aliasV ++ ":" ++ cfg.cashSuffix
          unitsPost := PyVal.str (nums.getD (nums.length - 2) "")
          totalValue := PyVal.str (nums.getD (nums.length - 1) "")
          fundCode := fc
          fundName := fn })) ∧
    (nums.length < 5 →
      parse_activity_line cfg line fc fn src acct = .ok none) := by
  simp only [parse_activity_line, hdr, hsplit]
  rw [if_pos ⟨hd, hr, hkey⟩]
  constructor
  · intro h5
    rw [if_pos h5, hacct]
  · intro hlt
    rw [if_neg (by omega)]

/-- The record the C5 witness line produces. -/
def c5rec : Record :=
  { date := "2022-04-12"
    description := "Contribution src = f.pdf"
    action := "Buy"
    value := PyVal.num (PyFloat.fin 100)
    price := PyVal.num (PyFloat.fin 2)
    amount := PyVal.num (PyFloat.fin 50)
    account := "MyAcct:RBF460"
    transferAccount := "MyAcct:Cash"
    unitsPost := PyVal.str "950.00"
    totalValue := PyVal.str "1,900.00"
    fundCode := "RBF460"
    fundName := "FundX" }

/-- C5 (witness): the theorem applied at a line with exactly five trailing
numeric tokens, and at a line with only four. -/
theorem c5_witness :
    parse_activity_line cfgEx "Apr122022 Contribution 100.00 2.00 50.00 950.00 1,900.00"
      "RBF460" "FundX" "f.pdf" "123456" = .ok (some c5rec) ∧
    parse_activity_line cfgEx "Apr122022 Contribution 100.00 2.00 50.00 950.00"
      "RBF460" "FundX" "f.pdf" "123456" = .ok none := by
  constructor
  · have h := (c5_mutual_last_five cfgEx
      "Apr122022 Contribution 100.00 2.00 50.00 950.00 1,900.00" "RBF460" "FundX"
      "f.pdf" "123456" "MyAcct" "2022-04-12"
      "Contribution 100.00 2.00 50.00 950.00 1,900.00" "Contribution"
      ["100.00", "2.00", "50.00", "950.00", "1,900.00"]
      (by decide) (by decide) (by decide) (by decide) (by decide) (by decide)).1
      (by decide)
    rw [h]
    decide
  · exact (c5_mutual_last_five cfgEx
      "Apr122022 Contribution 100.00 2.00 50.00 950.00" "RBF460" "FundX"
      "f.pdf" "123456" "MyAcct" "2022-04-12"
      "Contribution 100.00 2.00 50.00 950.00" "Contribution"
      ["100.00", "2.00", "50.00", "950.00"]
      (by decide) (by decide) (by decide) (by decide) (by decide) (by decide)).2
      (by decide)

/-! ### Claim C7: the savings example line and the two-token minimum -/

/-- C7: given the savings line `Apr122022 Contribution 200.00 3,301.22`
with `Contribution` a configured action key and a mapped account, the
savings builder yields a record with the stated Date, Value, Total value,
blank Price and Amount, and `<alias>:SavingsDeposit` as Account; and any
savings line segmenting to fewer than two numeric tokens yields no
record. -/
theorem c7_savings_example (cfg : Config) (fn src acct aliasV v : String)
    (hkey : ("Contribution", v) ∈ cfg.actionMap)
    (hacct : lookupMap cfg.accountMap acct = some aliasV) :
    (∃ r : Record,
      parse_savings_line cfg "Apr122022 Contribution 200.00 3,301.22" fn src acct =
        .ok (some r) ∧
      r.date = "2022-04-12" ∧
      r.value = PyVal.num (PyFloat.fin 200) ∧
      r.totalValue = PyVal.num (PyFloat.fin (mkRat 330122 100)) ∧
      r.price = PyVal.str "" ∧
      r.amount = PyVal.str "" ∧
      r.account = aliasV ++ ":SavingsDeposit") ∧
    (∀ (cfg2 : Config) (line2 fn2 src2 acct2 : String),
      (∀ d rest, extract_date_and_rest line2 = (some d, some rest) →
        (split_description_and_numbers rest).2.length < 2) →
      parse_savings_line cfg2 line2 fn2 src2 acct2 = .ok none) := by
  constructor
  · have hdr : extract_date_and_rest "Apr122022 Contribution 200.00 3,301.22" =
        (some "2022-04-12", some "Contribution 200.00 3,301.22") := by decide
    have hsplit : split_description_and_numbers "Contribution 200.00 3,301.22" =
        ("Contribution", ["200.00", "3,301.22"]) := by decide
    have hany : cfg.actionMap.any
        (fun kv => containsSub "Contribution 200.00 3,301.22" kv.1) = true :=
      List.any_eq_true.mpr ⟨("Contribution", v), hkey,
        (show containsSub "Contribution 200.00 3,301.22" "Contribution" = true by decide)⟩
    simp only [parse_savings_line, hdr, hsplit]
    rw [if_pos ⟨by decide, by decide, hany⟩, if_pos (by decide), hacct]
    exact ⟨_, rfl, rfl,
      (show to_number (["200.00", "3,301.22"].getD (["200.00", "3,301.22"].length - 2) "") =
        PyVal.num (PyFloat.fin 200) by decide),
      (show to_number (["200.00", "3,301.22"].getD (["200.00", "3,301.22"].length - 1) "") =
        PyVal.num (PyFloat.fin (mkRat 330122 100)) by decide),
      rfl, rfl, rfl⟩
  · intro cfg2 line2 fn2 src2 acct2 hfew
    cases hdr2 : extract_date_and_rest line2 with
    | mk dOpt rOpt =>
      simp only [parse_savings_line, hdr2]
      match dOpt, rOpt with
      | none, _ => rfl
      | some d, none => rfl
      | some d, some rest =>
        dsimp only
        by_cases hgate : d ≠ "" ∧ rest ≠ "" ∧
            cfg2.actionMap.any (fun kv => containsSub rest kv.1) = true
        · rw [if_pos hgate, if_neg (by have := hfew d rest hdr2; omega)]
        · rw [if_neg hgate]

/-- The record the C7 witness line produces. -/
def c7rec : Record :=
  { date := "2022-04-12"
    description := "Contribution src = f.pdf"
    action := "Buy"
    value := PyVal.num (PyFloat.fin 200)
    price := PyVal.str ""
    amount := PyVal.str ""
    account := "MyAcct:SavingsDeposit"
    transferAccount := "MyAcct:Cash"
    unitsPost := PyVal.str ""
    totalValue := PyVal.num (PyFloat.fin (mkRat 330122 100))
    fundCode := ""
    fundName := "RBC Savings Deposit" }

/-- C7 (witness): the theorem applied with the concrete configuration, plus
the fewer-than-two-tokens side on a closing-balance style line. -/
theorem c7_witness :
    parse_savings_line cfgEx "Apr122022 Contribution 200.00 3,301.22"
      "RBC Savings Deposit" "f.pdf" "123456" = .ok (some c7rec) ∧
    parse_savings_line cfgEx "Jun302022 Contribution 1,302.67"
      "RBC Savings Deposit" "f.pdf" "123456" = .ok none := by
  constructor
  · decide
  · refine (c7_savings_example cfgEx "RBC Savings Deposit" "f.pdf" "123456" "MyAcct"
      "Buy" (by decide) (by decide)).2 cfgEx "Jun302022 Contribution 1,302.67"
      "RBC Savings Deposit" "f.pdf" "123456" ?_
    intro d rest h
    rw [(by decide : extract_date_and_rest "Jun302022 Contribution 1,302.67" =
        (some "2022-06-30", some "Contribution 1,302.67"))] at h
    injection congrArg Prod.snd h with he
    rw [← he]
    decide

/-! ### Claim C8: a footer line resets the scanner -/

/-- C8: while in a section (mutual or savings), a line matching the footer
pattern (`startswith "Page"` and containing `of`) returns the scanner to
the OUTSIDE state with fund name/code cleared and any pending record
discarded, emitting nothing; the resulting state is exactly the pristine
`initState`, so nothing further can attach to the previous fund context
until headers are re-detected. -/
theorem c8_footer_resets (cfg : Config) (acct src : String) (st : ScanState)
    (raw : String)
    (hin : st.in_section = true)
    (hfoot : isFooter (pyStrip raw) = true) :
    stepLine cfg acct src st raw = .ok (initState, []) := by
  simp only [stepLine, hin, hfoot, if_true]

/-- C8 (witness): the theorem applied to a mutual-section state with live
fund context and a concrete footer line. -/
theorem c8_witness :
    stepLine cfgEx "123456" "f.pdf"
      ⟨true, some SecType.mutualS, "RBF460", "FundX", none⟩ "Page 2 of 5" =
      .ok (initState, []) :=
  c8_footer_resets cfgEx "123456" "f.pdf"
    ⟨true, some SecType.mutualS, "RBF460", "FundX", none⟩ "Page 2 of 5" rfl (by decide)

/-! ### Claim C6: grant-prefixed descriptions emit a derived second record -/

/-- C6: when the mutual-fund builder yields a record on an in-section line
(no footer, no fund header, no savings header, no pending record), exactly
two records are emitted if the built description starts with `Grant` or
`PGQC` -- the record itself plus a derived companion sharing Date,
Description, Action and Value, with the fund code in its Account replaced
by the cash suffix, the fixed government-grant transfer account, and blank
Price, Amount, units-post, total-value, fund-code and fund-name -- and
exactly one record otherwise. -/
theorem c6_grant_companion (cfg : Config) (acct src : String) (st : ScanState)
    (raw : String) (rec : Record)
    (hin : st.in_section = true)
    (hsec : st.section_type = some SecType.mutualS)
    (hpend : st.pending_return = none)
    (hfoot : isFooter (pyStrip raw) = false)
    (hfh : fundHeader (pyStrip raw) = none)
    (hsav : isSavingsHeader (pyStrip raw) = false)
    (hparse : parse_activity_line cfg (pyStrip raw) st.current_fund_code
        st.current_fund_name src acct = .ok (some rec)) :
    ((startsWithPy rec.description "Grant" || startsWithPy rec.description "PGQC") = true →
      stepLine cfg acct src st raw = .ok (st,
        [rec,
         { date := rec.date
           description := rec.description
           action := rec.action
           value := rec.value
           price := PyVal.str ""
           amount := PyVal.str ""
           account := pyReplace rec.account rec.fundCode cfg.cashSuffix
           transferAccount := cfg.respGrant
           unitsPost := PyVal.str ""
           totalValue := PyVal.str ""
           fundCode := ""
           fundName := "" }])) ∧
    ((startsWithPy rec.description "Grant" || startsWithPy rec.description "PGQC") = false →
      stepLine cfg acct src st raw = .ok (st, [rec])) := by
  have hstep : stepLine cfg acct src st raw =
      dispatchBuilders cfg acct src st (pyStrip raw) := by
    simp only [stepLine, hin, hfoot, hfh, hsav]
    cases hpp : pricePat (pyStrip raw) with
    | none => rw [hpend]; simp
    | some g => rw [hpend]; simp
  rw [hstep]
  simp only [dispatchBuilders, hsec, hparse]
  constructor
  · intro hg
    rw [if_pos hg]
    rfl
  · intro hg
    rw [if_neg (by simp [hg])]

/-- The record built from the C6 witness line (action resolves from the
first token `Grant`, which matches no key, so it is empty). -/
def c6rec : Record :=
  { date := "2022-04-12"
    description := "Grant Contribution src = f.pdf"
    action := ""
    value := PyVal.num (PyFloat.fin 100)
    price := PyVal.num (PyFloat.fin 2)
    amount := PyVal.num (PyFloat.fin 50)
    account := "MyAcct:RBF111"
    transferAccount := "MyAcct:Cash"
    unitsPost := PyVal.str "950.00"
    totalValue := PyVal.str "1,900.00"
    fundCode := "RBF111"
    fundName := "FundY" }

/-- The derived grant-offset companion of `c6rec`. -/
def c6companion : Record :=
  { date := "2022-04-12"
    description := "Grant Contribution src = f.pdf"
    action := ""
    value := PyVal.num (PyFloat.fin 100)
    price := PyVal.str ""
    amount := PyVal.str ""
    account := "MyAcct:Cash"
    transferAccount := "GrantAcct"
    unitsPost := PyVal.str ""
    totalValue := PyVal.str ""
    fundCode := ""
    fundName := "" }

/-- C6 (witness): the theorem applied to a concrete grant-prefixed line in
a mutual section. -/
theorem c6_witness :
    stepLine cfgEx "123456" "f.pdf"
      ⟨true, some SecType.mutualS, "RBF111", "FundY", none⟩
      "Apr122022 Grant Contribution 100.00 2.00 50.00 950.00 1,900.00" =
      .ok (⟨true, some SecType.mutualS, "RBF111", "FundY", none⟩,
        [c6rec, c6companion]) := by
  have h := (c6_grant_companion cfgEx "123456" "f.pdf"
    ⟨true, some SecType.mutualS, "RBF111", "FundY", none⟩
    "Apr122022 Grant Contribution 100.00 2.00 50.00 950.00 1,900.00" c6rec
    rfl rfl rfl (by decide) (by decide) (by decide) (by decide)).1 (by decide)
  rw [h]
  decide

/-! ### Claim C9: the pending-return slot is never populated -/

/-- `enterSection` never touches the pending slot. -/
theorem enterSection_pending (st : ScanState) (line : String) :
    (enterSection st line).pending_return = st.pending_return := by
  simp only [enterSection]
  split
  · rfl
  · split
    · rfl
    · rfl

/-- The builder dispatch either errors or returns the scanner state
unchanged. -/
theorem dispatchBuilders_shape (cfg : Config) (acct src : String)
    (st : ScanState) (line : String) :
    (∃ e, dispatchBuilders cfg acct src st line = .error e) ∨
    (∃ rs, dispatchBuilders cfg acct src st line = .ok (st, rs)) := by
  rcases hsec : st.section_type with _ | t
  · simp only [dispatchBuilders, hsec]
    exact Or.inr ⟨[], rfl⟩
  · cases t with
    | mutualS =>
      simp only [dispatchBuilders, hsec]
      cases hpar : parse_activity_line cfg line st.current_fund_code
          st.current_fund_name src acct with
      | error e => exact Or.inl ⟨e, rfl⟩
      | ok o =>
        cases o with
        | none => exact Or.inr ⟨[], rfl⟩
        | some rec =>
          dsimp only
          by_cases hg : (startsWithPy rec.description "Grant" ||
              startsWithPy rec.description "PGQC") = true
          · rw [if_pos hg]
            exact Or.inr ⟨_, rfl⟩
          · rw [if_neg hg]
            exact Or.inr ⟨_, rfl⟩
    | savingsS =>
      simp only [dispatchBuilders, hsec]
      cases hpar : parse_savings_line cfg line
          (if st.current_fund_name = "" then "RBC Savings Deposit"
           else st.current_fund_name) src acct with
      | error e => exact Or.inl ⟨e, rfl⟩
      | ok o =>
        cases o with
        | none => exact Or.inr ⟨[], rfl⟩
        | some rec => exact Or.inr ⟨_, rfl⟩

/-- C9: the pending partial-record slot is always empty: every step from a
state with an empty pending slot behaves exactly like the scanner with the
pending-price completion branch removed and leaves the slot empty, and a
whole page scan from the loop's initial state coincides with the scan that
has the branch deleted -- the parenthesized-price branch can never emit a
record. -/
theorem c9_pending_slot_dead (cfg : Config) (acct src : String) :
    (∀ (st : ScanState) (raw : String), st.pending_return = none →
      stepLine cfg acct src st raw = stepLineNoPrice cfg acct src st raw ∧
      (∀ st2 rs, stepLine cfg acct src st raw = .ok (st2, rs) →
        st2.pending_return = none)) ∧
    (∀ lines : List String,
      scanLines cfg acct src initState lines =
        scanLinesNoPrice cfg acct src initState lines) := by
  have hpt : ∀ (st : ScanState) (raw : String), st.pending_return = none →
      stepLine cfg acct src st raw = stepLineNoPrice cfg acct src st raw ∧
      (∀ st2 rs, stepLine cfg acct src st raw = .ok (st2, rs) →
        st2.pending_return = none) := by
    intro st raw hp
    cases hin : st.in_section with
    | false =>
      constructor
      · simp [stepLine, stepLineNoPrice, hin]
      · intro st2 rs h
        simp only [stepLine, hin] at h
        simp only [Bool.false_eq_true, if_false, Except.ok.injEq, Prod.mk.injEq] at h
        obtain ⟨h1, -⟩ := h
        rw [← h1, enterSection_pending]
        exact hp
    | true =>
      cases hfoot : isFooter (pyStrip raw) with
      | true =>
        constructor
        · simp [stepLine, stepLineNoPrice, hin, hfoot]
        · intro st2 rs h
          simp only [stepLine, hin, hfoot, if_true] at h
          simp only [Except.ok.injEq, Prod.mk.injEq] at h
          obtain ⟨h1, -⟩ := h
          rw [← h1]
          rfl
      | false =>
        cases hfh : fundHeader (pyStrip raw) with
        | some nc =>
          constructor
          · simp [stepLine, stepLineNoPrice, hin, hfoot, hfh]
          · intro st2 rs h
            simp only [stepLine, hin, hfoot, hfh] at h
            simp only [Bool.false_eq_true, if_false, if_true, Except.ok.injEq,
              Prod.mk.injEq] at h
            obtain ⟨h1, -⟩ := h
            rw [← h1]
            exact hp
        | none =>
          cases hsav : isSavingsHeader (pyStrip raw) with
          | true =>
            constructor
            · simp [stepLine, stepLineNoPrice, hin, hfoot, hfh, hsav]
            · intro st2 rs h
              simp only [stepLine, hin, hfoot, hfh, hsav] at h
              simp only [Bool.false_eq_true, if_false, if_true, Except.ok.injEq,
                Prod.mk.injEq] at h
              obtain ⟨h1, -⟩ := h
              rw [← h1]
              exact hp
          | false =>
            have hd : stepLine cfg acct src st raw =
                dispatchBuilders cfg acct src st (pyStrip raw) := by
              simp only [stepLine, hin, hfoot, hfh, hsav]
              cases hpp : pricePat (pyStrip raw) with
              | none => rw [hp]; simp
              | some g => rw [hp]; simp
            have hd2 : stepLineNoPrice cfg acct src st raw =
                dispatchBuilders cfg acct src st (pyStrip raw) := by
              simp only [stepLineNoPrice, hin, hfoot, hfh, hsav]
              simp
            constructor
            · rw [hd, hd2]
            · intro st2 rs h
              rw [hd] at h
              rcases dispatchBuilders_shape cfg acct src st (pyStrip raw) with
                ⟨e, he⟩ | ⟨rs', hok⟩
              · rw [he] at h
                cases h
              · rw [hok] at h
                injection h with h1
                have h1f : st = st2 := congrArg Prod.fst h1
                exact h1f ▸ hp
  refine ⟨hpt, ?_⟩
  have haux : ∀ (lines : List String) (st : ScanState), st.pending_return = none →
      scanLines cfg acct src st lines = scanLinesNoPrice cfg acct src st lines := by
    intro lines
    induction lines with
    | nil => intro st hp; rfl
    | cons raw rest ih =>
      intro st hp
      obtain ⟨heq, hpres⟩ := hpt st raw hp
      simp only [scanLines, scanLinesNoPrice]
      rw [← heq]
      cases hstep : stepLine cfg acct src st raw with
      | error e => rfl
      | ok pr =>
        obtain ⟨st2, rs⟩ := pr
        dsimp only
        rw [ih st2 (hpres st2 rs hstep)]
  exact fun lines => haux lines initState rfl

/-- C9 (witness): the theorem applied at a concrete parenthesized-price
line in a mutual section and at a concrete page. -/
theorem c9_witness :
    stepLine cfgEx "123456" "f.pdf"
      ⟨true, some SecType.mutualS, "RBF460", "FundX", none⟩ "(0.0187000)" =
      stepLineNoPrice cfgEx "123456" "f.pdf"
        ⟨true, some SecType.mutualS, "RBF460", "FundX", none⟩ "(0.0187000)" ∧
    scanLines cfgEx "123456" "f.pdf" initState
      ["Your investment activity with Royal Mutual Funds Inc.", "(0.0187000)"] =
      scanLinesNoPrice cfgEx "123456" "f.pdf" initState
        ["Your investment activity with Royal Mutual Funds Inc.", "(0.0187000)"] :=
  ⟨((c9_pending_slot_dead cfgEx "123456" "f.pdf").1
      ⟨true, some SecType.mutualS, "RBF460", "FundX", none⟩ "(0.0187000)" rfl).1,
   (c9_pending_slot_dead cfgEx "123456" "f.pdf").2
      ["Your investment activity with Royal Mutual Funds Inc.", "(0.0187000)"]⟩

/-! ### Claim C2: scanner state across page boundaries -/

/-- Appending a page to a document whose scan succeeded appends exactly the
records of scanning that page from the re-initialized state (pages after
the first, so the account number is simply carried). -/
theorem extractGo_append (cfg : Config) (src a : String) (p : List String) :
    ∀ (pages : List (List String)) (n : Nat) (rs : List Record), 2 ≤ n →
      extractGo cfg src (some a) n pages = .ok rs →
      extractGo cfg src (some a) n (pages ++ [p]) =
        (match scanLines cfg a src initState p with
         | .error e => .error e
         | .ok x => .ok (rs ++ x.2)) := by
  intro pages
  induction pages with
  | nil =>
    intro n rs hn hok
    simp only [extractGo] at hok
    injection hok with h1
    subst h1
    simp only [List.nil_append, extractGo]
    rw [if_neg (by omega)]
    dsimp only
    cases hscan : scanLines cfg a src initState p with
    | error e => rfl
    | ok x =>
      obtain ⟨stx, rsx⟩ := x
      simp [extractGo]
  | cons pg rest ih =>
    intro n rs hn hok
    simp only [extractGo] at hok ⊢
    rw [if_neg (by omega)] at hok ⊢
    dsimp only at hok ⊢
    cases hscan : scanLines cfg a src initState pg with
    | error e =>
      rw [hscan] at hok
      cases hok
    | ok x1 =>
      obtain ⟨st1, rs1⟩ := x1
      rw [hscan] at hok
      dsimp only at hok
      cases hrest : extractGo cfg src (some a) (n + 1) rest with
      | error e =>
        rw [hrest] at hok
        cases hok
      | ok rs2 =>
        rw [hrest] at hok
        injection hok with h1
        subst h1
        dsimp only
        rw [List.append_eq, ih (n + 1) rs2 (by omega) hrest]
        cases hscan2 : scanLines cfg a src initState p with
        | error e => rfl
        | ok x =>
          obtain ⟨stx, rsx⟩ := x
          dsimp only
          rw [List.append_assoc]

/-- C2 (amended): the scanner state does NOT carry over across a page
boundary: every page after the first is scanned from the re-initialized
`initState` (OUTSIDE, fund context cleared, no pending record); only the
account number discovered on page 1 persists.  Appending a page to a
successfully scanned document therefore appends exactly the records of a
fresh-state scan of that page. -/
theorem c2_each_page_scanned_fresh (cfg : Config) (src a : String)
    (pg1 p : List String) (rest : List (List String)) (rs : List Record)
    (hacct : extract_account_number pg1 = some a)
    (hok : extract_from_pdf_text cfg src (pg1 :: rest) = .ok rs) :
    extract_from_pdf_text cfg src (pg1 :: (rest ++ [p])) =
      (match scanLines cfg a src initState p with
       | .error e => .error e
       | .ok x => .ok (rs ++ x.2)) := by
  simp only [extract_from_pdf_text, extractGo] at hok ⊢
  rw [if_pos trivial] at hok ⊢
  rw [hacct] at hok ⊢
  dsimp only at hok ⊢
  cases hscan : scanLines cfg a src initState pg1 with
  | error e =>
    rw [hscan] at hok
    cases hok
  | ok x1 =>
    obtain ⟨st1, rs1⟩ := x1
    rw [hscan] at hok
    dsimp only at hok
    cases hrest : extractGo cfg src (some a) (1 + 1) rest with
    | error e =>
      rw [hrest] at hok
      cases hok
    | ok rs2 =>
      rw [hrest] at hok
      injection hok with h1
      subst h1
      rw [extractGo_append cfg src a p rest (1 + 1) rs2 (by omega) hrest]
      cases hscan2 : scanLines cfg a src initState p with
      | error e => rfl
      | ok x =>
        obtain ⟨stx, rsx⟩ := x
        dsimp only
        rw [List.append_assoc]

/-- Page 1 of the C2 document: account number and the mutual-fund section
marker. -/
def docC2page1 : List String :=
  ["Your account number", "123456",
   "Your investment activity with Royal Mutual Funds Inc."]

/-- Page 2 of the C2 document: a valid activity line with no new section
marker on this page. -/
def docC2page2 : List String :=
  ["Apr122022 Contribution 100.00 2.00 50.00 950.00 1,900.00"]

/-- The record that scanning page 2 WOULD emit if the section state carried
over from page 1 (as the claim asserts). -/
def c2carryRec : Record :=
  { date := "2022-04-12"
    description := "Contribution src = f.pdf"
    action := "Buy"
    value := PyVal.num (PyFloat.fin 100)
    price := PyVal.num (PyFloat.fin 2)
    amount := PyVal.num (PyFloat.fin 50)
    account := "MyAcct:"
    transferAccount := "MyAcct:Cash"
    unitsPost := PyVal.str "950.00"
    totalValue := PyVal.str "1,900.00"
    fundCode := ""
    fundName := "" }

/-- C2 (counterexample): the claim says section/fund/pending state carries
from the end of one page to the start of the next, a new page alone not
resetting it.  On this two-page document the code emits nothing (page 2
starts OUTSIDE again), while the spec-modelled carry-over scan
`extractCarry` emits the activity record -- so the state used at the start
of page 2 is not the state at the end of page 1. -/
theorem c2_counterexample :
    extract_from_pdf_text cfgEx "f.pdf" [docC2page1, docC2page2] = .ok [] ∧
    extractCarry cfgEx "f.pdf" [docC2page1, docC2page2] = .ok [c2carryRec] ∧
    extractCarry cfgEx "f.pdf" [docC2page1, docC2page2] ≠
      extract_from_pdf_text cfgEx "f.pdf" [docC2page1, docC2page2] := by
  decide

/-- C2 (witness): the amended theorem applied to the concrete document with
an empty middle page. -/
theorem c2_witness :
    extract_from_pdf_text cfgEx "f.pdf" (docC2page1 :: ([] :: [docC2page2])) =
      .ok [] := by
  have h := c2_each_page_scanned_fresh cfgEx "f.pdf" "123456" docC2page1 docC2page2
    [[]] [] (by decide) (by decide)
  simp only [List.cons_append, List.nil_append] at h
  rw [h]
  decide

/-! ### Claim C4: the numeric classifier `to_number` versus `NUM_RE` -/

/-- Unfolds the digit predicate to its arithmetic bounds. -/
theorem isDigitC_bounds {c : Char} (h : isDigitC c = true) :
    48 ≤ c.toNat ∧ c.toNat ≤ 57 := of_decide_eq_true h

/-- A digit is not whitespace. -/
theorem digit_not_space {c : Char} (h : isDigitC c = true) : isPySpace c = false := by
  have hb := isDigitC_bounds h
  unfold isPySpace
  exact decide_eq_false (by omega)

/-- A digit is not a letter. -/
theorem digit_not_letter {c : Char} (h : isDigitC c = true) : isLetterC c = false := by
  have hb := isDigitC_bounds h
  unfold isLetterC
  exact decide_eq_false (by omega)

/-- A digit differs from any non-digit character. -/
theorem digit_ne {c d : Char} (h : isDigitC c = true) (hd : isDigitC d = false) :
    c ≠ d := by
  intro he
  rw [he] at h
  rw [h] at hd
  cases hd

/-- `dropWhile` is the identity on lists whose elements all fail the
predicate. -/
theorem dropWhile_noSat {p : Char → Bool} :
    ∀ l : List Char, (∀ c ∈ l, p c = false) → l.dropWhile p = l
  | [], _ => rfl
  | c :: cs, h => by
    simp [List.dropWhile, h c (List.mem_cons_self c cs)]

/-- Stripping whitespace is the identity on whitespace-free lists. -/
theorem pyStripL_noWs (l : List Char) (h : ∀ c ∈ l, isPySpace c = false) :
    pyStripL l = l := by
  unfold pyStripL despaceL
  rw [dropWhile_noSat l h,
    dropWhile_noSat _ (fun c hc => h c (List.mem_reverse.mp hc)),
    List.reverse_reverse]

/-- `digitsUGo` consumes exactly an all-digit run when the remainder starts
with neither a digit nor an underscore. -/
theorem digitsUGo_digits (r : List Char)
    (hr : match r with | [] => True | c :: _ => isDigitC c = false ∧ c ≠ '_') :
    ∀ ds : List Char, (∀ c ∈ ds, isDigitC c = true) →
      digitsUGo (ds ++ r) = (ds, r) := by
  intro ds
  induction ds with
  | nil =>
    intro _
    match r, hr with
    | [], _ => rfl
    | c :: cs, ⟨h1, h2⟩ =>
      show digitsUGo (c :: cs) = ([], c :: cs)
      rw [digitsUGo.eq_def]
      simp [h1, h2]
  | cons d ds2 ih =>
    intro hall
    have hdd : isDigitC d = true := hall d (List.mem_cons_self d ds2)
    show digitsUGo (d :: (ds2 ++ r)) = (d :: ds2, r)
    rw [digitsUGo.eq_def]
    simp [hdd, ih (fun c hc => hall c (List.mem_cons_of_mem d hc))]

/-- Same consumption property for the digit-run entry point. -/
theorem digitsU_digits (r : List Char)
    (hr : match r with | [] => True | c :: _ => isDigitC c = false ∧ c ≠ '_')
    (ds : List Char) (hall : ∀ c ∈ ds, isDigitC c = true) :
    digitsU (ds ++ r) = (ds, r) := by
  cases ds with
  | nil =>
    match r, hr with
    | [], _ => rfl
    | c :: cs, ⟨h1, h2⟩ => simp [digitsU, h1]
  | cons d ds2 =>
    have hdd : isDigitC d = true := hall d (List.mem_cons_self d ds2)
    simp only [List.cons_append, digitsU]
    rw [digitsUGo_digits r hr ds2 (fun c hc => hall c (List.mem_cons_of_mem d hc))]
    simp [hdd]

/-- A string of digits -- or digits, a dot and a non-empty digit fraction --
parses as a finite Python float. -/
theorem pyFloat_numstring (d1 fr : List Char)
    (hd1 : ∀ c ∈ d1, isDigitC c = true) (hfr : ∀ c ∈ fr, isDigitC c = true) :
    (d1 ≠ [] → ∃ q : Rat, pyFloat? (String.mk d1) = some (PyFloat.fin q)) ∧
    (fr ≠ [] →
      ∃ q : Rat, pyFloat? (String.mk (d1 ++ '.' :: fr)) = some (PyFloat.fin q)) := by
  constructor
  · intro hne
    cases d1 with
    | nil => exact absurd rfl hne
    | cons c0 cs0 =>
      have hc0 : isDigitC c0 = true := hd1 c0 (List.mem_cons_self c0 cs0)
      have hdigU : digitsU (c0 :: cs0) = (c0 :: cs0, []) := by
        have h := digitsU_digits [] trivial (c0 :: cs0) hd1
        rwa [List.append_nil] at h
      have hps : parseSign (c0 :: cs0) = (false, c0 :: cs0) := by
        simp only [parseSign]
        rw [if_neg (digit_ne hc0 (by decide)), if_neg (digit_ne hc0 (by decide))]
      simp only [pyFloat?]
      dsimp only [String.toList]
      rw [pyStripL_noWs _ (fun c hc => digit_not_space (hd1 c hc)), hps]
      simp only [List.headD_cons, digit_not_letter hc0]
      simp only [Bool.false_eq_true, if_false, numberPartF, hdigU]
      rw [if_neg (by simp)]
      exact ⟨_, rfl⟩
  · intro hne
    have hdigU : digitsU (d1 ++ '.' :: fr) = (d1, '.' :: fr) :=
      digitsU_digits ('.' :: fr) ⟨by decide, by decide⟩ d1 hd1
    have hfrU : digitsU fr = (fr, []) := by
      have h := digitsU_digits [] trivial fr hfr
      rwa [List.append_nil] at h
    have hnos : ∀ c ∈ d1 ++ '.' :: fr, isPySpace c = false := by
      intro c hc
      rcases List.mem_append.mp hc with hc1 | hc2
      · exact digit_not_space (hd1 c hc1)
      · rcases List.mem_cons.mp hc2 with rfl | hc3
        · decide
        · exact digit_not_space (hfr c hc3)
    have hps : parseSign (d1 ++ '.' :: fr) = (false, d1 ++ '.' :: fr) := by
      cases d1 with
      | nil => simp [parseSign]
      | cons c0 cs0 =>
        have hc0 : isDigitC c0 = true := hd1 c0 (List.mem_cons_self c0 cs0)
        simp only [List.cons_append, parseSign]
        rw [if_neg (digit_ne hc0 (by decide)), if_neg (digit_ne hc0 (by decide))]
    have hhead : isLetterC ((d1 ++ '.' :: fr).headD '0') = false := by
      cases d1 with
      | nil => exact (show isLetterC '.' = false by decide)
      | cons c0 cs0 =>
        have hc0 : isDigitC c0 = true := hd1 c0 (List.mem_cons_self c0 cs0)
        simp only [List.cons_append, List.headD_cons]
        exact digit_not_letter hc0
    simp only [pyFloat?]
    dsimp only [String.toList]
    rw [pyStripL_noWs _ hnos, hps]
    simp only [hhead, Bool.false_eq_true, if_false, numberPartF, hdigU, if_true]
    rw [hfrU]
    rw [if_neg (fun hand => hne hand.2)]
    exact ⟨_, rfl⟩

/-- Every `NUM_RE`-matching string containing at least one digit still
parses as a finite float after its commas are stripped. -/
theorem NUM_RE_float (t : String) (hre : NUM_RE t = true) (hdig : hasDigit t = true) :
    ∃ q : Rat, pyFloat? (stripCommas t) = some (PyFloat.fin q) := by
  simp only [NUM_RE, Bool.and_eq_true, decide_eq_true_eq] at hre
  obtain ⟨hpre, hrest⟩ := hre
  have htd := List.takeWhile_append_dropWhile
    (fun c => isDigitC c || decide (c = ',')) (l := t.toList)
  have hd1 : ∀ c ∈ (t.toList.takeWhile (fun c => isDigitC c || decide (c = ','))).filter
      (fun c => decide (¬ c = ',')), isDigitC c = true := by
    intro c hc
    have hcP := List.mem_takeWhile_imp (List.mem_of_mem_filter hc)
    have hcq := List.of_mem_filter hc
    simp only [Bool.or_eq_true, decide_eq_true_eq] at hcP
    rcases hcP with h | h
    · exact h
    · exact absurd h (of_decide_eq_true hcq)
  cases hdw : t.toList.dropWhile (fun c => isDigitC c || decide (c = ',')) with
  | nil =>
    have hall : t.toList = t.toList.takeWhile (fun c => isDigitC c || decide (c = ',')) := by
      conv_lhs => rw [← htd]
      rw [hdw, List.append_nil]
    have hstrip : stripCommas t =
        String.mk ((t.toList.takeWhile (fun c => isDigitC c || decide (c = ','))).filter
          (fun c => decide (¬ c = ','))) := by
      unfold stripCommas
      rw [← hall]
    obtain ⟨c, hcmem, hcdig⟩ := List.any_eq_true.mp hdig
    have hcmem2 : c ∈ (t.toList.takeWhile (fun c => isDigitC c || decide (c = ','))) := by
      rw [← hall]
      exact hcmem
    have hmemf : c ∈ (t.toList.takeWhile (fun c => isDigitC c || decide (c = ','))).filter
        (fun c => decide (¬ c = ',')) :=
      List.mem_filter_of_mem hcmem2 (by exact decide_eq_true (digit_ne hcdig (by decide)))
    have hne := List.ne_nil_of_mem hmemf
    rw [hstrip]
    exact (pyFloat_numstring _ [] hd1 (fun c hc => absurd hc (List.not_mem_nil c))).1 hne
  | cons c cs =>
    rw [hdw] at hrest
    simp only [Bool.and_eq_true, decide_eq_true_eq, List.all_eq_true] at hrest
    obtain ⟨⟨hcdot, hcsne⟩, hcs⟩ := hrest
    subst hcdot
    have hdotcs : List.filter (fun c => decide (¬ c = ',')) ('.' :: cs) = '.' :: cs := by
      rw [List.filter_eq_self]
      intro a ha
      rcases List.mem_cons.mp ha with rfl | h
      · decide
      · exact decide_eq_true (digit_ne (hcs a h) (by decide))
    have hstrip : stripCommas t =
        String.mk ((t.toList.takeWhile (fun c => isDigitC c || decide (c = ','))).filter
            (fun c => decide (¬ c = ',')) ++ '.' :: cs) := by
      unfold stripCommas
      conv_lhs => rw [← htd]
      rw [hdw, List.filter_append, hdotcs]
    rw [hstrip]
    exact (pyFloat_numstring _ cs hd1 hcs).2 hcsne

/-- C4 (counterexample): the claim says `to_number` returns a float exactly
when the quote-stripped token matches the numeric pattern, returning
non-matching tokens unchanged.  Both directions fail: `","` matches
`NUM_RE` yet comes back as a string, while `"1e5"` fails `NUM_RE` yet is
converted to the float `100000.0`; moreover `' "abc" '` comes back
stripped, not as the original string. -/
theorem c4_counterexample :
    NUM_RE "," = true ∧ to_number "," = PyVal.str "," ∧
    NUM_RE "1e5" = false ∧ to_number "1e5" = PyVal.num (PyFloat.fin 100000) ∧
    to_number " \"abc\" " = PyVal.str "abc" := by
  decide

/-- C4 (amended): after stripping whitespace and quotes, `to_number`
returns a finite float for every token that matches the numeric pattern
AND contains at least one digit (the all-separator tokens such as `","`
being the pattern-matching exceptions that stay strings); whenever the
comma-stripped token fails Python float parsing altogether (which accepts
more than the pattern, e.g. exponents), the stripped token -- not the
original -- is returned as a string. -/
theorem c4_to_number (s : String) (hs : s ≠ "") :
    (NUM_RE (stripQuoted s) = true → hasDigit (stripQuoted s) = true →
      ∃ q : Rat, to_number s = PyVal.num (PyFloat.fin q)) ∧
    (pyFloat? (stripCommas (stripQuoted s)) = none →
      to_number s = PyVal.str (stripQuoted s)) := by
  constructor
  · intro hre hdig
    obtain ⟨q, hq⟩ := NUM_RE_float (stripQuoted s) hre hdig
    refine ⟨q, ?_⟩
    unfold to_number
    rw [if_neg hs]
    dsimp only
    rw [hq]
  · intro hnone
    unfold to_number
    rw [if_neg hs]
    dsimp only
    rw [hnone]

/-- C4 (witness): the amended theorem applied at `"2,345.15"` (pattern
side) and at `"abc"` (failure side). -/
theorem c4_witness :
    to_number "2,345.15" = PyVal.num (PyFloat.fin (mkRat 46903 20)) ∧
    to_number "abc" = PyVal.str "abc" := by
  have h1 := (c4_to_number "2,345.15" (by decide)).1 (by decide) (by decide)
  have h2 := (c4_to_number "abc" (by decide)).2 (by decide)
  constructor
  · decide
  · rw [h2]
    decide
